import Mathlib

/-!
Verification of the parameter & template resolution pipeline of the
genai-toolbox repository: the MindsDB literal-interpolation routine
(`interpolateParams`), the shared template-then-positional binding order in
`Tool.Invoke` (tidb-sql, mindsdb-sql), result-row materialization with
column-type-aware coercion, and the surrounding error handling.

Statements are modelled as lists of characters (Go ranges over runes and the
code only slices at rune boundaries, so the rune-list view is exact).
Machine-level formatting performed by Go's out-of-scope `fmt` package
(`%v` on floats, `%v` on arbitrary values) is carried as the already
rendered string inside the corresponding `Value` constructor.
-/

namespace Toolbox

/-- Decidable equality of `Except` results, so witnesses can evaluate
fallible computations with `decide`. -/
instance exceptDecEq {ε α : Type} [DecidableEq ε] [DecidableEq α] :
    DecidableEq (Except ε α)
  | .ok x, .ok y =>
    match decEq x y with
    | isTrue h => isTrue (congrArg Except.ok h)
    | isFalse h => isFalse (fun hh => h (Except.ok.inj hh))
  | .error x, .error y =>
    match decEq x y with
    | isTrue h => isTrue (congrArg Except.error h)
    | isFalse h => isFalse (fun hh => h (Except.error.inj hh))
  | .ok _, .error _ => isFalse (fun hh => Except.noConfusion hh)
  | .error _, .ok _ => isFalse (fun hh => Except.noConfusion hh)

/-- A runtime parameter value as it appears in the `[]any` slice handed to a
driver.  `float` and `other` carry the rendering that Go's out-of-scope
`fmt.Sprintf("%v", v)` would produce for them, since `fmt` is an external
library; all other constructors carry the value itself. -/
inductive Value where
  | vNull : Value
  | vStr (s : String) : Value
  | vInt (i : Int) : Value
  | vUInt (n : Nat) : Value
  | vFloat (rendered : String) : Value
  | vBool (b : Bool) : Value
  | vOther (rendered : String) : Value
deriving Repr, DecidableEq

/-- The ASCII single-quote character (code point 39). -/
def squote : Char := Char.ofNat 39

namespace Value

/-- Single-quote escaping used by `interpolateParams` for string parameters:
the Go loop walks the runes and doubles every single quote
(src/unnamed/part_001 lines 531-539 and 555-563). -/
def escapeQuotes (s : List Char) : List Char :=
  match s with
  | [] => []
  | c :: rest => (if c = squote then [squote, squote] else [c]) ++ escapeQuotes rest

/-- The replacement text `interpolateParams` computes for one parameter
(src/unnamed/part_001 lines 526-564): `nil` becomes `NULL`, strings are
quote-escaped and wrapped in single quotes, signed and unsigned integers are
printed with `%d`, floats with `%v`, booleans as `1`/`0`, and any other value
is `%v`-rendered and then treated like a string. -/
def replacement : Value → List Char
  | vNull => "NULL".data
  | vStr s => squote :: escapeQuotes s.data ++ [squote]
  | vInt i => (toString i).data
  | vUInt n => (toString n).data
  | vFloat rendered => rendered.data
  | vBool b => if b then ['1'] else ['0']
  | vOther rendered => squote :: escapeQuotes rendered.data ++ [squote]

/-- Whether a value falls in the catch-all branch of the interpolation
switch (any type other than nil, string, the integer families, the float
families and bool). -/
def isOther : Value → Bool
  | vOther _ => true
  | _ => false

end Value

/-- Byte index of the first `'?'` in the partially built statement: the inner
scan `for i, ch := range result { if ch == '?' ... }` of `interpolateParams`
(src/unnamed/part_001 lines 512-518).  Restarting this scan from the head of
the whole rebuilt statement on every iteration is the behaviour under test. -/
def findQ : List Char → Option Nat
  | [] => none
  | c :: rest =>
    if c = '?' then some 0
    else match findQ rest with
      | none => none
      | some i => some (i + 1)

/-- Number of `'?'` characters in a statement. -/
def countQ (s : List Char) : Nat := s.countP (fun c => c = '?')

/-- The main loop of `interpolateParams` (src/unnamed/part_001 lines
510-569), instrumented with the number of substitutions performed (the final
value of `paramIndex`): while parameters remain, find the first `'?'` of the
current statement; stop if there is none; otherwise splice in the
replacement for the next parameter and continue on the rebuilt statement. -/
def interpolateLoop : List Char → List Value → List Char × Nat
  | result, [] => (result, 0)
  | result, p :: ps =>
    match findQ result with
    | none => (result, 0)
    | some idx =>
      let next := result.take idx ++ p.replacement ++ result.drop (idx + 1)
      let r := interpolateLoop next ps
      (r.1, r.2 + 1)

/-- `interpolateParams` (src/unnamed/part_001 lines 506-572).  Every return
path of the Go function is `return result, nil`, so the error component is
always `none`. -/
def interpolateParams (query : String) (params : List Value) :
    String × Option String :=
  (⟨(interpolateLoop query.data params).1⟩, none)

/-- Number of substitutions `interpolateParams` performs, i.e. the final
value of its `paramIndex` counter. -/
def interpolateCount (query : String) (params : List Value) : Nat :=
  (interpolateLoop query.data params).2

/-- Modelled from the spec: the declared type of a parameter.  The spec's
array/object types are collapsed into `tOther`, matching the `vOther`
rendering carried by `Value`. -/
inductive ParamType where
  | tString
  | tInteger
  | tFloat
  | tBoolean
  | tOther
deriving Repr, DecidableEq

/-- Modelled from the spec: whether a supplied value satisfies a declared
parameter type (the type-check of step 1 of the pipeline). -/
def ParamType.matches : ParamType → Value → Bool
  | .tString, .vStr _ => true
  | .tInteger, .vInt _ => true
  | .tInteger, .vUInt _ => true
  | .tFloat, .vFloat _ => true
  | .tBoolean, .vBool _ => true
  | .tOther, .vOther _ => true
  | _, _ => false

/-- Modelled from the spec: one declared parameter of a tool configuration
(a name, a type, and an optional default; a parameter without a default is
required). -/
structure Param where
  name : String
  ptype : ParamType
  default : Option Value
deriving Repr, DecidableEq

/-- Lookup in the runtime argument map.  The map is represented as an
association list of name/value pairs; parameter names are distinct, so
first-match lookup coincides with Go map access. -/
def lookupVal : List (String × Value) → String → Option Value
  | [], _ => none
  | (k, v) :: rest, key => if k = key then some v else lookupVal rest key

/-- Modelled from the spec: `ParamValues.AsSlice`, which is missing from the
sources (only its call sites are present) — the positionally ordered argument
slice obtained by dropping the names from the resolved parameter list. -/
def asSlice (l : List (String × Value)) : List Value := l.map Prod.snd

/-- Whether a declared parameter is violated by the runtime argument map:
it is absent with no default to fall back on, or present with a value of the
wrong type. -/
def Param.violated (p : Param) (m : List (String × Value)) : Bool :=
  match lookupVal m p.name with
  | some v => !(p.ptype.matches v)
  | none => p.default.isNone

/-- Modelled from the spec: `tools.GetParams`, which is missing from the
sources (only its call sites are present).  Step 1 and step 4 of the
pipeline: walk the declared parameters in declaration order; for each, take
the supplied value after type-checking it, or the declared default when the
value is absent, and fail with an error naming the offending parameter when
a required parameter is absent or a supplied value is mistyped.  The result
is the resolved name/value list in declaration order. -/
def getParams : List Param → List (String × Value) →
    Except String (List (String × Value))
  | [], _ => .ok []
  | p :: ps, m =>
    match lookupVal m p.name with
    | some v =>
      if p.ptype.matches v then
        (getParams ps m).map (fun rest => (p.name, v) :: rest)
      else
        .error ("parameter \"" ++ p.name ++ "\" has an invalid type")
    | none =>
      match p.default with
      | some d => (getParams ps m).map (fun rest => (p.name, d) :: rest)
      | none => .error ("parameter \"" ++ p.name ++ "\" is required")

/-- Modelled from the spec: the verbatim rendering of a template-parameter
value inserted into the statement text (template parameters are
string-valued identifier substitutions; other shapes render via their
carried representation). -/
def renderTemplateValue : Value → String
  | .vStr s => s
  | .vInt i => toString i
  | .vUInt n => toString n
  | .vFloat r => r
  | .vBool b => cond b "true" "false"
  | .vNull => ""
  | .vOther r => r

/-- Replace every non-overlapping occurrence of `pat` in the statement,
scanning left to right.  The fuel argument bounds the number of scanning
steps; each step consumes at least one character, so fuel equal to the
length of the input is always sufficient. -/
def replaceAllAux (pat rep : List Char) : Nat → List Char → List Char
  | _, [] => []
  | 0, s => s
  | fuel + 1, c :: rest =>
    if pat ≠ [] ∧ pat.isPrefixOf (c :: rest) then
      rep ++ replaceAllAux pat rep fuel ((c :: rest).drop pat.length)
    else
      c :: replaceAllAux pat rep fuel rest

/-- Replace every non-overlapping occurrence of `pat` with `rep`. -/
def replaceAll (pat rep s : List Char) : List Char :=
  replaceAllAux pat rep s.length s

/-- The Go-template placeholder for a template parameter: two opening
braces, a dot, the parameter name, two closing braces. -/
def templatePlaceholder (name : String) : String :=
  "\x7b\x7b." ++ name ++ "\x7d\x7d"

/-- Modelled from the spec: `tools.ResolveTemplateParams`, which is missing
from the sources (only its call sites are present).  Step 3 of the pipeline:
for each declared template parameter, substitute its placeholder in the
statement text verbatim with the supplied value, failing when the value is
absent from the argument map. -/
def resolveTemplateParams (tps : List Param) (stmt : String)
    (m : List (String × Value)) : Except String String :=
  match tps with
  | [] => .ok stmt
  | tp :: rest =>
    match lookupVal m tp.name with
    | none => .error ("template parameter \"" ++ tp.name ++ "\" not found")
    | some v =>
      resolveTemplateParams rest
        ⟨replaceAll (templatePlaceholder tp.name).data
          (renderTemplateValue v).data stmt.data⟩ m

/-- A raw cell value as produced by the MySQL driver scan: `[]byte` for
text-like and JSON columns, machine numbers otherwise (the float rendering
is carried as a string, floating point being out of scope). -/
inductive Raw where
  | bytes (s : String)
  | int (i : Int)
  | float (rendered : String)
deriving Repr, DecidableEq

/-- The shape of a driver query result: column names, the driver-reported
database type name of each column, and the scanned rows (a `none` cell is a
SQL NULL). -/
structure QueryResult where
  cols : List String
  colTypes : List String
  rows : List (List (Option Raw))
deriving Repr, DecidableEq

/-- One materialized output cell of the tidb-sql tool: NULL, an unmarshalled
JSON document, a text value coerced to a native string, or the raw driver
value passed through unchanged. -/
inductive Cell (α : Type) where
  | null
  | json (j : α)
  | str (s : String)
  | raw (r : Raw)
deriving Repr, DecidableEq

/-- The per-cell coercion of `tidbsql.Tool.Invoke`
(src/internal/tools/tidb/tidbsql/tidbsql.go lines 169-191): a nil value is
stored as nil before the type switch; a JSON column is unmarshalled from its
byte value (`json.Unmarshal` is external, passed in as `unmarshal`); TEXT,
VARCHAR and NVARCHAR byte values are cast to string; every other column
stores the raw value unchanged.  The Go type assertion `val.([]byte)` panics
on a non-byte value; the panic is modelled as an error. -/
def convertCellTidb {α : Type} (unmarshal : String → Except String α)
    (dbType : String) : Option Raw → Except String (Cell α)
  | none => .ok .null
  | some v =>
    if dbType = "JSON" then
      match v with
      | .bytes s =>
        match unmarshal s with
        | .ok j => .ok (.json j)
        | .error _ => .error ("unable to unmarshal json data " ++ s)
      | _ => .error "interface conversion panic"
    else if dbType = "TEXT" ∨ dbType = "VARCHAR" ∨ dbType = "NVARCHAR" then
      match v with
      | .bytes s => .ok (.str s)
      | _ => .error "interface conversion panic"
    else .ok (.raw v)

/-- The inner column loop of `tidbsql.Tool.Invoke` for one scanned row
(tidbsql.go lines 168-192): walk the columns in driver order, converting the
cell at each position and binding it to that column's name.  The Go code
indexes `rawValues[i]` and `colTypes[i]` with the column index; an index out
of range (impossible for a well-formed driver result) is modelled as an
error.  The produced association list records the insertion order of the Go
map writes. -/
def materializeRowTidb {α : Type} (unmarshal : String → Except String α) :
    List String → List String → List (Option Raw) →
    Except String (List (String × Cell α))
  | [], _, _ => .ok []
  | name :: ns, ty :: ts, v :: vs =>
    match convertCellTidb unmarshal ty v with
    | .error e => .error e
    | .ok cell =>
      match materializeRowTidb unmarshal ns ts vs with
      | .error e => .error e
      | .ok rest => .ok ((name, cell) :: rest)
  | _ :: _, _, _ => .error "index out of range"

/-- The row loop of `tidbsql.Tool.Invoke` (tidbsql.go lines 162-194): a
result entry is appended for each driver row, in the order the driver
returns the rows. -/
def materializeTidb {α : Type} (unmarshal : String → Except String α)
    (qr : QueryResult) : Except String (List (List (String × Cell α))) :=
  go qr.rows
where
  go : List (List (Option Raw)) → Except String (List (List (String × Cell α)))
    | [] => .ok []
    | r :: rs =>
      match materializeRowTidb unmarshal qr.cols qr.colTypes r with
      | .error e => .error e
      | .ok row =>
        match go rs with
        | .error e => .error e
        | .ok rest => .ok (row :: rest)

/-- The configuration fields of a SQL tool (tidbsql.go lines 112-124 and
src/unnamed/part_001 lines 577-589).  The connection pool is not a
configuration field: it is passed to the invoke functions as the abstract
`driver` argument.  The manifest payloads are abstracted to strings, their
contents being irrelevant to invocation. -/
structure Tool where
  Name : String
  Kind : String
  AuthRequired : List String
  Parameters : List Param
  TemplateParameters : List Param
  AllParams : List Param
  Statement : String
  manifest : String
  mcpManifest : String
deriving Repr, DecidableEq

/-- One recorded driver call: the statement text and the positional
argument list handed to `QueryContext`. -/
structure DriverCall where
  stmt : String
  args : List Value
deriving Repr, DecidableEq

/-- `tidbsql.Tool.Invoke` (tidbsql.go lines 126-201), instrumented with the
list of driver calls it issues.  The runtime `params` argument is the
resolved `ParamValues` viewed through `AsMap` as a name/value association
list.  The steps are exactly those of the source: resolve template
parameters on the configured statement, extract the standard parameters,
convert them to a positional slice, issue the single `QueryContext` call,
then materialize the rows. -/
def tidbInvoke {α : Type} (unmarshal : String → Except String α) (t : Tool)
    (driver : String → List Value → Except String QueryResult)
    (params : List (String × Value)) :
    Except String (List (List (String × Cell α))) × List DriverCall :=
  match resolveTemplateParams t.TemplateParameters t.Statement params with
  | .error e => (.error ("unable to extract template params " ++ e), [])
  | .ok newStatement =>
    match getParams t.Parameters params with
    | .error e => (.error ("unable to extract standard params " ++ e), [])
    | .ok newParams =>
      match driver newStatement (asSlice newParams) with
      | .error e =>
        (.error ("unable to execute query: " ++ e),
          [⟨newStatement, asSlice newParams⟩])
      | .ok results =>
        match materializeTidb unmarshal results with
        | .error e => (.error e, [⟨newStatement, asSlice newParams⟩])
        | .ok out => (.ok out, [⟨newStatement, asSlice newParams⟩])

/-- The per-row materialization of `mindsdbsql.Tool.Invoke`
(src/unnamed/part_001 lines 641-654): nil cells are stored as nil before any
conversion; every other cell goes through `mysqlcommon.ConvertToType`, which
is missing from the sources and is passed in abstractly as `conv` (given the
column's database type name and the raw value). -/
def materializeRowMindsdb {β : Type} (conv : String → Raw → Except String β) :
    List String → List String → List (Option Raw) →
    Except String (List (String × Option β))
  | [], _, _ => .ok []
  | name :: ns, ty :: ts, v :: vs =>
    match v with
    | none =>
      match materializeRowMindsdb conv ns ts vs with
      | .error e => .error e
      | .ok rest => .ok ((name, none) :: rest)
    | some rv =>
      match conv ty rv with
      | .error e => .error ("errors encountered when converting values: " ++ e)
      | .ok b =>
        match materializeRowMindsdb conv ns ts vs with
        | .error e => .error e
        | .ok rest => .ok ((name, some b) :: rest)
  | _ :: _, _, _ => .error "index out of range"

/-- The row loop of `mindsdbsql.Tool.Invoke` (src/unnamed/part_001 lines
635-656). -/
def materializeMindsdb {β : Type} (conv : String → Raw → Except String β)
    (qr : QueryResult) : Except String (List (List (String × Option β))) :=
  go qr.rows
where
  go : List (List (Option Raw)) → Except String (List (List (String × Option β)))
    | [] => .ok []
    | r :: rs =>
      match materializeRowMindsdb conv qr.cols qr.colTypes r with
      | .error e => .error e
      | .ok row =>
        match go rs with
        | .error e => .error e
        | .ok rest => .ok (row :: rest)

/-- `mindsdbsql.Tool.Invoke` (src/unnamed/part_001 lines 591-663),
instrumented with the list of driver calls it issues.  After template
resolution and standard-parameter extraction, the positional parameters are
interpolated literally into the statement (MindsDB lacks prepared-statement
support); the single `QueryContext` call then receives the final statement
and an empty argument list. -/
def mindsdbInvoke {β : Type} (conv : String → Raw → Except String β) (t : Tool)
    (driver : String → List Value → Except String QueryResult)
    (params : List (String × Value)) :
    Except String (List (List (String × Option β))) × List DriverCall :=
  match resolveTemplateParams t.TemplateParameters t.Statement params with
  | .error e => (.error ("unable to extract template params " ++ e), [])
  | .ok newStatement =>
    match getParams t.Parameters params with
    | .error e => (.error ("unable to extract standard params " ++ e), [])
    | .ok newParams =>
      match interpolateParams newStatement (asSlice newParams) with
      | (_, some e) => (.error ("unable to interpolate params: " ++ e), [])
      | (finalStatement, none) =>
        match driver finalStatement [] with
        | .error e =>
          (.error ("unable to execute query: " ++ e), [⟨finalStatement, []⟩])
        | .ok results =>
          match materializeMindsdb conv results with
          | .error e => (.error e, [⟨finalStatement, []⟩])
          | .ok out => (.ok out, [⟨finalStatement, []⟩])

/-- `bigquerygetdatasetinfo.Tool.Invoke` (src/unnamed/part_001 lines
121-141), instrumented with the list of metadata calls it issues.  The two
comma-ok string assertions fail both when the key is absent and when the
value is not a string, and each failure path returns before the client is
touched, with a message naming the parameter. -/
def bigqueryInvoke {μ : Type} (clientProject : String)
    (metadata : String → String → Except String μ)
    (params : List (String × Value)) : Except String μ × List (String × String) :=
  match lookupVal params "project" with
  | some (.vStr projectId) =>
    match lookupVal params "dataset" with
    | some (.vStr datasetId) =>
      match metadata projectId datasetId with
      | .error e =>
        (.error ("failed to get metadata for dataset " ++ datasetId ++
            " (in project " ++ clientProject ++ "): " ++ e),
          [(projectId, datasetId)])
      | .ok m => (.ok m, [(projectId, datasetId)])
    | _ => (.error "invalid or missing 'dataset' parameter; expected a string", [])
  | _ => (.error "invalid or missing 'project' parameter; expected a string", [])

/-- The shape of a pgx query result (src/unnamed/part_002): field names and
rows of abstract driver values. -/
structure PgResult (γ : Type) where
  fields : List String
  rows : List (List γ)

/-- The row loop of `postgresexecutesql.Tool.Invoke` (src/unnamed/part_002
lines 279-290): one output entry per driver row in driver order, each row's
map written by walking the fields in driver order and pairing field `i` with
value `i`.  Out-of-range indexing (impossible for a well-formed driver
result) is modelled as an error. -/
def materializeRowPg {γ : Type} : List String → List γ →
    Except String (List (String × γ))
  | [], _ => .ok []
  | f :: fs, v :: vs =>
    match materializeRowPg fs vs with
    | .error e => .error e
    | .ok rest => .ok ((f, v) :: rest)
  | _ :: _, [] => .error "index out of range"

/-- The materialization of `postgresexecutesql.Tool.Invoke`
(src/unnamed/part_002 lines 277-292). -/
def materializePg {γ : Type} (qr : PgResult γ) :
    Except String (List (List (String × γ))) :=
  go qr.rows
where
  go : List (List γ) → Except String (List (List (String × γ)))
    | [] => .ok []
    | r :: rs =>
      match materializeRowPg qr.fields r with
      | .error e => .error e
      | .ok row =>
        match go rs with
        | .error e => .error e
        | .ok rest => .ok (row :: rest)

/-- The literal text claim C2 prescribes for each interpolated value:
strings wrapped in single quotes with every internal single quote doubled,
signed and unsigned integers as decimal numerals, floats directly as their
numeral, booleans directly, nil as the literal NULL.  This definition
follows the claim wording (escaping via flatMap), to be compared against
the escaping loop translated from the source; the catch-all constructor is
not covered by the claim and is excluded from the C2 theorem. -/
def claimedValueText : Value → String
  | .vNull => "NULL"
  | .vStr s =>
    "\x27" ++
      ⟨s.data.flatMap fun c => if c = squote then [squote, squote] else [c]⟩ ++
      "\x27"
  | .vInt i => toString i
  | .vUInt n => toString n
  | .vFloat r => r
  | .vBool b => if b then "1" else "0"
  | .vOther r => r

/-- The value a declared parameter resolves to against a runtime argument
map: the supplied value when present, the declared default otherwise. -/
def resolvedValue (p : Param) (m : List (String × Value)) : Option Value :=
  match lookupVal m p.name with
  | some v => some v
  | none => p.default

/-- The positional argument slice dictated by the claim wording for C3: the
resolved value of each declared parameter, in declaration order. -/
def declaredSlice (ps : List Param) (m : List (String × Value)) : List Value :=
  ps.map (fun p => (resolvedValue p m).getD .vNull)

/-- The first declared parameter violated by the runtime argument map, in
declaration order. -/
def firstViolated : List Param → List (String × Value) → Option Param
  | [], _ => none
  | p :: ps, m => if p.violated m then some p else firstViolated ps m

/-- The error message `getParams` produces for a violated parameter. -/
def paramErrorMsg (p : Param) (m : List (String × Value)) : String :=
  match lookupVal m p.name with
  | some _ => "parameter \"" ++ p.name ++ "\" has an invalid type"
  | none => "parameter \"" ++ p.name ++ "\" is required"

/-- Whether an optionally looked-up value fails the comma-ok string
assertion of `bigquerygetdatasetinfo.Tool.Invoke`: absent, or not a
string. -/
def notAString : Option Value → Bool
  | some (.vStr _) => false
  | _ => true

/-- The per-cell coercion dictated by the claim wording for C4, matching on
the driver value first: a nil cell stays nil; a byte value under a
JSON-typed column is the unmarshalled document (never the string); a byte
value under a TEXT, VARCHAR or NVARCHAR column is the native string; any
other combination passes the raw driver value through unchanged.  The
branch where unmarshalling fails is unreachable for a successfully
materialized result. -/
def claimedCell {α : Type} (unmarshal : String → Except String α)
    (ty : String) : Option Raw → Cell α
  | none => .null
  | some (.bytes s) =>
    if ty = "JSON" then
      match unmarshal s with
      | .ok j => .json j
      | .error _ => .raw (.bytes s)
    else if ty = "TEXT" ∨ ty = "VARCHAR" ∨ ty = "NVARCHAR" then .str s
    else .raw (.bytes s)
  | some v => .raw v

/-- One row as dictated by the claim wording for C4/C5: each column name,
in driver order, bound to the claimed coercion of that column's value. -/
def claimedRow {α : Type} (unmarshal : String → Except String α) :
    List String → List String → List (Option Raw) → List (String × Cell α)
  | name :: ns, ty :: ts, v :: vs =>
    (name, claimedCell unmarshal ty v) :: claimedRow unmarshal ns ts vs
  | _, _, _ => []

/-- The whole materialized result as dictated by the claim wording: one
entry per driver row, in driver row order. -/
def claimedMaterialize {α : Type} (unmarshal : String → Except String α)
    (qr : QueryResult) : List (List (String × Cell α)) :=
  qr.rows.map (fun r => claimedRow unmarshal qr.cols qr.colTypes r)

/-- The postgres materialization as dictated by the claim wording for C5:
one entry per driver row in driver order, each row zipping the driver's
field names with the row values positionally. -/
def pgZip {γ : Type} (pqr : PgResult γ) : List (List (String × γ)) :=
  pqr.rows.map (fun r => pqr.fields.zip r)

/-- `tidbsql.Tool.Invoke` together with the receiver as it stands when the
method returns.  Go passes the receiver by value (`func (t Tool) Invoke`)
and the body of the method contains no assignment to any receiver field, so
the receiver at exit is the receiver at entry. -/
def tidbInvokeWithReceiver {α : Type} (unmarshal : String → Except String α)
    (t : Tool) (driver : String → List Value → Except String QueryResult)
    (params : List (String × Value)) :
    (Except String (List (List (String × Cell α))) × List DriverCall) × Tool :=
  (tidbInvoke unmarshal t driver params, t)

/-- `mindsdbsql.Tool.Invoke` together with the receiver as it stands when
the method returns; as for tidb, the receiver is a value and no field of it
is ever assigned. -/
def mindsdbInvokeWithReceiver {β : Type} (conv : String → Raw → Except String β)
    (t : Tool) (driver : String → List Value → Except String QueryResult)
    (params : List (String × Value)) :
    (Except String (List (List (String × Option β))) × List DriverCall) × Tool :=
  (mindsdbInvoke conv t driver params, t)

/-- A concrete tool configuration used by the witnesses: one template
parameter for the table name and one integer positional parameter. -/
def sampleTool : Tool where
  Name := "example_tool"
  Kind := "tidb-sql"
  AuthRequired := []
  Parameters := [⟨"id", .tInteger, none⟩]
  TemplateParameters := [⟨"tableName", .tString, none⟩]
  AllParams := [⟨"tableName", .tString, none⟩, ⟨"id", .tInteger, none⟩]
  Statement := "SELECT * FROM \x7b\x7b.tableName\x7d\x7d WHERE id = ?"
  manifest := ""
  mcpManifest := ""

/-- A concrete runtime argument map for `sampleTool`. -/
def sampleParams : List (String × Value) :=
  [("tableName", .vStr "users"), ("id", .vInt 3)]

/-- The same runtime arguments as `sampleParams`, supplied in the opposite
order. -/
def sampleParamsRev : List (String × Value) :=
  [("id", .vInt 3), ("tableName", .vStr "users")]

/-- A driver that answers every query with an empty result set. -/
def okEmptyDriver : String → List Value → Except String QueryResult :=
  fun _ _ => .ok ⟨[], [], []⟩

/-- A driver that fails every query. -/
def failDriver (e : String) : String → List Value → Except String QueryResult :=
  fun _ _ => .error e

/-- A concrete stand-in for `json.Unmarshal` used in witnesses: tags the
document it is given. -/
def tagUnmarshal : String → Except String String :=
  fun s => .ok ("json:" ++ s)

/-- A stand-in unmarshaller that is never consulted. -/
def unitUnmarshal : String → Except String Unit :=
  fun _ => .error "no json"

/-- A stand-in for `mysqlcommon.ConvertToType` that is never consulted. -/
def unitConv : String → Raw → Except String Unit :=
  fun _ _ => .error "no conversion"

/-- A stand-in for the BigQuery metadata client call. -/
def unitMetadata : String → String → Except String Unit :=
  fun _ _ => .ok ()

/-- A concrete driver result with one JSON, one text and one numeric
column, used by the C4 witness. -/
def sampleQr : QueryResult where
  cols := ["doc", "name", "n"]
  colTypes := ["JSON", "TEXT", "INT"]
  rows := [[some (.bytes "7"), some (.bytes "bob"), some (.int 5)],
           [none, some (.bytes "x"), some (.int 1)]]

/-- A concrete driver result used by the C5 witness. -/
def orderQr : QueryResult where
  cols := ["b", "a"]
  colTypes := ["INT", "INT"]
  rows := [[some (.int 2), some (.int 1)], [some (.int 4), some (.int 3)]]

/-- A concrete pgx driver result used by the C5 witness. -/
def pgSampleQr : PgResult Int where
  fields := ["y", "x"]
  rows := [[2, 1], [4, 3]]

theorem countQ_nil : countQ [] = 0 := rfl

theorem countQ_cons (c : Char) (s : List Char) :
    countQ (c :: s) = (if c = '?' then 1 else 0) + countQ s := by
  unfold countQ
  rw [List.countP_cons]
  by_cases hc : c = '?' <;> simp [hc, Nat.add_comm]

theorem countQ_append (a b : List Char) :
    countQ (a ++ b) = countQ a + countQ b := by
  simp [countQ, List.countP_append]

theorem findQ_none {s : List Char} (h : findQ s = none) : countQ s = 0 := by
  induction s with
  | nil => rfl
  | cons c rest ih =>
    rw [countQ_cons]
    by_cases hc : c = '?'
    · simp [findQ, hc] at h
    · simp only [findQ, hc, if_false] at h
      cases hrest : findQ rest with
      | none => simp [hc, ih hrest]
      | some j => rw [hrest] at h; simp at h

theorem findQ_split {s : List Char} {i : Nat} (h : findQ s = some i) :
    ∃ a b, s = a ++ '?' :: b ∧ a.length = i ∧ countQ a = 0 := by
  induction s generalizing i with
  | nil => simp [findQ] at h
  | cons c rest ih =>
    by_cases hc : c = '?'
    · simp only [findQ, hc, if_true] at h
      injection h with h0
      subst h0
      exact ⟨[], rest, by simp [hc], rfl, rfl⟩
    · simp only [findQ, hc, if_false] at h
      cases hrest : findQ rest with
      | none => rw [hrest] at h; simp at h
      | some j =>
        rw [hrest] at h
        injection h with h0
        subst h0
        obtain ⟨a, b, hs, hlen, hcount⟩ := ih hrest
        exact ⟨c :: a, b, by simp [hs], by simp [hlen],
          by rw [countQ_cons, hcount]; simp [hc]⟩

theorem countQ_subst {s : List Char} {i : Nat} (r : List Char)
    (h : findQ s = some i) :
    countQ (s.take i ++ r ++ s.drop (i + 1)) = countQ r + (countQ s - 1) ∧
      1 ≤ countQ s := by
  obtain ⟨a, b, hs, hlen, hcount⟩ := findQ_split h
  subst hs
  have htake : (a ++ '?' :: b).take i = a := by
    rw [← hlen]; exact List.take_left a ('?' :: b)
  have hdrop : (a ++ '?' :: b).drop (i + 1) = b := by
    have h2 : a ++ '?' :: b = (a ++ ['?']) ++ b := by simp
    have hl : i + 1 = (a ++ ['?']).length := by simp [← hlen]
    rw [h2, hl]
    exact List.drop_left (a ++ ['?']) b
  have hs2 : countQ (a ++ '?' :: b) = countQ b + 1 := by
    rw [countQ_append, countQ_cons, hcount]; simp [Nat.add_comm]
  rw [htake, hdrop, hs2, countQ_append, countQ_append, hcount]
  omega

theorem interpolateLoop_count (ps : List Value) (s : List Char)
    (h : ∀ p ∈ ps, countQ p.replacement = 0) :
    (interpolateLoop s ps).2 = min (countQ s) ps.length ∧
      countQ (interpolateLoop s ps).1 = countQ s - ps.length := by
  induction ps generalizing s with
  | nil => simp [interpolateLoop]
  | cons p ps ih =>
    cases hf : findQ s with
    | none =>
      have h0 : countQ s = 0 := findQ_none hf
      simp [interpolateLoop, hf, h0]
    | some idx =>
      have hp : countQ p.replacement = 0 := h p (List.mem_cons_self p ps)
      have hsub := countQ_subst (i := idx) p.replacement hf
      have h1 : 1 ≤ countQ s := hsub.2
      have hnext :
          countQ (s.take idx ++ p.replacement ++ s.drop (idx + 1)) =
            countQ s - 1 := by
        rw [hsub.1, hp]; omega
      have ihn := ih (s.take idx ++ p.replacement ++ s.drop (idx + 1))
        (fun q hq => h q (List.mem_cons_of_mem p hq))
      rw [hnext] at ihn
      simp only [interpolateLoop, hf, List.length_cons]
      constructor
      · rw [ihn.1]; omega
      · rw [ihn.2]; omega

/-- C9: after each substitution, `interpolateParams` rescans for the next
question mark from the beginning of the partially built statement, so a
string parameter whose value contains a question mark captures the next
parameter: here the integer 1 lands inside the just-interpolated literal
for the first parameter while the genuine second placeholder survives
untouched (the second conjunct shows the first replacement indeed carries
the question mark that was then overwritten). -/
theorem c9_rescan_inside_literal :
    interpolateParams "a=? AND b=?" [.vStr "x?y", .vInt 1] =
      ("a=\x27x1y\x27 AND b=?", none) ∧
    Value.replacement (.vStr "x?y") = "\x27x?y\x27".data := by decide

/-- C10 counterexample: the claim that `interpolateParams` performs exactly
min(number of question marks, number of parameters) substitutions fails:
for the query consisting of a single question mark and two string
parameters, the first replacement itself introduces a question mark, the
rescan consumes it, and both parameters are substituted even though
min(1, 2) = 1. -/
theorem c10_count_counterexample :
    interpolateCount "?" [.vStr "?", .vStr "A"] = 2 ∧
    min (countQ "?".data) [Value.vStr "?", Value.vStr "A"].length = 1 ∧
    interpolateParams "?" [.vStr "?", .vStr "A"] =
      ("\x27\x27A\x27\x27", none) := by decide

/-- C10 (amended): `interpolateParams` is total and always returns a nil
error; provided no parameter replacement itself introduces a question mark,
it performs exactly min(number of question marks, number of parameters)
substitutions and leaves the surplus question marks verbatim (their count
in the output is the input count minus the number of parameters consumed);
surplus parameters are silently ignored once the placeholders run out. -/
theorem c10_amended_total_count (query : String) (params : List Value)
    (h : ∀ p ∈ params, countQ p.replacement = 0) :
    (interpolateParams query params).2 = none ∧
    interpolateCount query params = min (countQ query.data) params.length ∧
    countQ (interpolateParams query params).1.data =
      countQ query.data - params.length := by
  have hc := interpolateLoop_count params query.data h
  exact ⟨rfl, hc.1, hc.2⟩

/-- Witness for the amended C10 at a concrete input: two placeholders, one
integer parameter, answer substituted once with one placeholder left
verbatim. -/
theorem c10_amended_witness :
    (interpolateParams "a=? AND b=?" [.vInt 7]).2 = none ∧
    interpolateCount "a=? AND b=?" [.vInt 7] =
      min (countQ "a=? AND b=?".data) [Value.vInt 7].length ∧
    countQ (interpolateParams "a=? AND b=?" [.vInt 7]).1.data =
      countQ "a=? AND b=?".data - [Value.vInt 7].length :=
  c10_amended_total_count "a=? AND b=?" [.vInt 7] (by decide)

theorem escapeQuotes_eq_flatMap (l : List Char) :
    Value.escapeQuotes l =
      l.flatMap fun c => if c = squote then [squote, squote] else [c] := by
  induction l with
  | nil => rfl
  | cons c rest ih => simp [Value.escapeQuotes, List.flatMap_cons, ih]

theorem replacement_eq_claimed {v : Value} (hv : v.isOther = false) :
    v.replacement = (claimedValueText v).data := by
  cases v with
  | vNull => rfl
  | vStr s =>
    show squote :: Value.escapeQuotes s.data ++ [squote] = _
    rw [escapeQuotes_eq_flatMap]
    simp [claimedValueText, String.data_append]
    decide
  | vInt i => rfl
  | vUInt n => rfl
  | vFloat r => rfl
  | vBool b => cases b <;> rfl
  | vOther r => simp [Value.isOther] at hv

theorem findQ_first {a : List Char} (b : List Char) (ha : countQ a = 0) :
    findQ (a ++ '?' :: b) = some a.length := by
  induction a with
  | nil => simp [findQ]
  | cons c rest ih =>
    rw [countQ_cons] at ha
    have hc : ¬(c = '?') := by
      intro hcq; rw [if_pos hcq] at ha; omega
    have hrest : countQ rest = 0 := by
      rw [if_neg hc] at ha; omega
    simp [findQ, hc, ih hrest]

/-- C2: interpolation of a single positional parameter into the single
question-mark placeholder of a statement replaces exactly that placeholder
with the text the claim prescribes: quote-wrapped, quote-doubled strings;
decimal numerals for the integer families; the direct numeral for floats;
the direct 1/0 for booleans; the literal NULL for nil. -/
theorem c2_literal_interpolation (pre suf : String) (v : Value)
    (hpre : countQ pre.data = 0) (hv : v.isOther = false) :
    interpolateParams (pre ++ "?" ++ suf) [v] =
      (pre ++ claimedValueText v ++ suf, none) := by
  have hdata : (pre ++ "?" ++ suf).data = pre.data ++ '?' :: suf.data := by
    simp [String.data_append]
  have hfind : findQ (pre.data ++ '?' :: suf.data) = some pre.data.length :=
    findQ_first suf.data hpre
  have htake : (pre.data ++ '?' :: suf.data).take pre.data.length = pre.data :=
    List.take_left pre.data ('?' :: suf.data)
  have hdrop :
      (pre.data ++ '?' :: suf.data).drop (pre.data.length + 1) = suf.data := by
    have h2 : pre.data ++ '?' :: suf.data = (pre.data ++ ['?']) ++ suf.data := by
      simp
    have hl : pre.data.length + 1 = (pre.data ++ ['?']).length := by simp
    rw [h2, hl]
    exact List.drop_left (pre.data ++ ['?']) suf.data
  have hloop : interpolateLoop (pre.data ++ '?' :: suf.data) [v] =
      (pre.data ++ v.replacement ++ suf.data, 1) := by
    simp only [interpolateLoop, hfind, htake, hdrop]
  have hout : (pre ++ claimedValueText v ++ suf).data =
      pre.data ++ v.replacement ++ suf.data := by
    rw [replacement_eq_claimed hv]
    simp [String.data_append]
  have hstr : (⟨pre.data ++ v.replacement ++ suf.data⟩ : String) =
      pre ++ claimedValueText v ++ suf := (congrArg String.mk hout).symm
  unfold interpolateParams
  rw [hdata, hloop, hstr]

/-- Witness for C2: a string value containing a single quote is interpolated
with the quote doubled and the whole value single-quote-wrapped. -/
theorem c2_witness :
    interpolateParams "x=?" [.vStr "O\x27Brien"] =
      ("x=\x27O\x27\x27Brien\x27", none) := by
  have h := c2_literal_interpolation "x=" "" (.vStr "O\x27Brien")
    (by decide) (by decide)
  have e1 : ("x=" ++ "?" ++ "" : String) = "x=?" := by decide
  have e2 : ("x=" ++ claimedValueText (.vStr "O\x27Brien") ++ "" : String) =
      "x=\x27O\x27\x27Brien\x27" := by decide
  rw [e1, e2] at h
  exact h

theorem tidbInvoke_trace {α : Type} (unmarshal : String → Except String α)
    (t : Tool) (driver : String → List Value → Except String QueryResult)
    (m : List (String × Value)) {newStatement : String}
    {vs : List (String × Value)}
    (hres : resolveTemplateParams t.TemplateParameters t.Statement m =
      .ok newStatement)
    (hget : getParams t.Parameters m = .ok vs) :
    (tidbInvoke unmarshal t driver m).2 = [⟨newStatement, asSlice vs⟩] := by
  unfold tidbInvoke
  rw [hres, hget]
  dsimp only
  cases hd : driver newStatement (asSlice vs) with
  | error e => rfl
  | ok results =>
    dsimp only
    cases hmz : materializeTidb unmarshal results <;> rfl

theorem mindsdbInvoke_trace {β : Type} (conv : String → Raw → Except String β)
    (t : Tool) (driver : String → List Value → Except String QueryResult)
    (m : List (String × Value)) {newStatement : String}
    {vs : List (String × Value)}
    (hres : resolveTemplateParams t.TemplateParameters t.Statement m =
      .ok newStatement)
    (hget : getParams t.Parameters m = .ok vs) :
    (mindsdbInvoke conv t driver m).2 =
      [⟨(interpolateParams newStatement (asSlice vs)).1, []⟩] := by
  unfold mindsdbInvoke
  rw [hres, hget]
  simp only [interpolateParams]
  cases hd : driver ⟨(interpolateLoop newStatement.data (asSlice vs)).1⟩ [] with
  | error e => rfl
  | ok results =>
    dsimp only
    cases hmz : materializeMindsdb conv results <;> rfl

/-- C1: in both the tidb-sql and the mindsdb-sql Invoke, the template
substitution pass happens before positional binding: whenever the template
resolution and parameter extraction succeed, the tidb driver call carries
the already substituted statement together with the positional argument
slice, and the mindsdb interpolation is applied to the already substituted
statement, the driver receiving the interpolated text with an empty
argument list. -/
theorem c1_template_before_binding {α β : Type}
    (unmarshal : String → Except String α) (conv : String → Raw → Except String β)
    (t : Tool) (driver : String → List Value → Except String QueryResult)
    (m : List (String × Value)) (newStatement : String)
    (vs : List (String × Value))
    (hres : resolveTemplateParams t.TemplateParameters t.Statement m =
      .ok newStatement)
    (hget : getParams t.Parameters m = .ok vs) :
    (tidbInvoke unmarshal t driver m).2 = [⟨newStatement, asSlice vs⟩] ∧
    (mindsdbInvoke conv t driver m).2 =
      [⟨(interpolateParams newStatement (asSlice vs)).1, []⟩] :=
  ⟨tidbInvoke_trace unmarshal t driver m hres hget,
    mindsdbInvoke_trace conv t driver m hres hget⟩

/-- Witness for C1: the template placeholder is substituted first, the
positional placeholder is bound (tidb) or interpolated (mindsdb)
afterwards, on the substituted text. -/
theorem c1_witness :
    (tidbInvoke unitUnmarshal sampleTool okEmptyDriver sampleParams).2 =
      [⟨"SELECT * FROM users WHERE id = ?", [.vInt 3]⟩] ∧
    (mindsdbInvoke unitConv sampleTool okEmptyDriver sampleParams).2 =
      [⟨"SELECT * FROM users WHERE id = 3", []⟩] := by
  have h := c1_template_before_binding unitUnmarshal unitConv sampleTool
    okEmptyDriver sampleParams "SELECT * FROM users WHERE id = ?"
    [("id", .vInt 3)] (by decide) (by decide)
  have e1 : asSlice [("id", Value.vInt 3)] = [.vInt 3] := by decide
  have e2 : (interpolateParams "SELECT * FROM users WHERE id = ?"
      [Value.vInt 3]).1 = "SELECT * FROM users WHERE id = 3" := by
    decide
  rw [e1] at h
  rw [e2] at h
  exact h

theorem resolveTemplateParams_congr (tps : List Param) (stmt : String)
    {m m' : List (String × Value)}
    (hm : ∀ k, lookupVal m' k = lookupVal m k) :
    resolveTemplateParams tps stmt m' = resolveTemplateParams tps stmt m := by
  induction tps generalizing stmt with
  | nil => rfl
  | cons tp rest ih =>
    unfold resolveTemplateParams
    rw [hm tp.name]
    cases lookupVal m tp.name with
    | none => rfl
    | some v => exact ih _

theorem getParams_congr (ps : List Param) {m m' : List (String × Value)}
    (hm : ∀ k, lookupVal m' k = lookupVal m k) :
    getParams ps m' = getParams ps m := by
  induction ps with
  | nil => rfl
  | cons p rest ih =>
    unfold getParams
    rw [hm p.name, ih]

theorem getParams_shape {ps : List Param} {m : List (String × Value)}
    {vs : List (String × Value)} (h : getParams ps m = .ok vs) :
    vs = ps.map (fun p => (p.name, (resolvedValue p m).getD .vNull)) := by
  induction ps generalizing vs with
  | nil =>
    simp only [getParams] at h
    cases h
    rfl
  | cons p rest ih =>
    unfold getParams at h
    cases hl : lookupVal m p.name with
    | some v =>
      rw [hl] at h
      dsimp only at h
      by_cases hmt : p.ptype.matches v
      · rw [if_pos hmt] at h
        cases hrest : getParams rest m with
        | error e => rw [hrest] at h; simp [Except.map] at h
        | ok ws =>
          rw [hrest] at h
          dsimp only [Except.map] at h
          cases h
          have h1 : (resolvedValue p m).getD Value.vNull = v := by
            simp [resolvedValue, hl]
          show (p.name, v) :: ws =
            (p.name, (resolvedValue p m).getD Value.vNull) ::
              rest.map (fun q => (q.name, (resolvedValue q m).getD Value.vNull))
          rw [h1, ← ih hrest]
      · rw [if_neg hmt] at h
        simp at h
    | none =>
      rw [hl] at h
      dsimp only at h
      cases hd : p.default with
      | some d =>
        rw [hd] at h
        cases hrest : getParams rest m with
        | error e => rw [hrest] at h; simp [Except.map] at h
        | ok ws =>
          rw [hrest] at h
          dsimp only [Except.map] at h
          cases h
          have h1 : (resolvedValue p m).getD Value.vNull = d := by
            simp [resolvedValue, hl, hd]
          show (p.name, d) :: ws =
            (p.name, (resolvedValue p m).getD Value.vNull) ::
              rest.map (fun q => (q.name, (resolvedValue q m).getD Value.vNull))
          rw [h1, ← ih hrest]
      | none => rw [hd] at h; simp at h

/-- C3: the driver-bound argument slice follows parameter declaration
order, not the order of the runtime argument map: under a successful
resolution, the single tidb driver call carries the resolved values of the
declared parameters in declaration order, the same call is issued for any
argument map with the same lookups (such as one listing the arguments in a
different order), and the slice is exactly the declaration-ordered resolved
values. -/
theorem c3_declaration_order {α : Type} (unmarshal : String → Except String α)
    (t : Tool) (driver : String → List Value → Except String QueryResult)
    (m m' : List (String × Value)) (newStatement : String)
    (vs : List (String × Value))
    (hm : ∀ k, lookupVal m' k = lookupVal m k)
    (hres : resolveTemplateParams t.TemplateParameters t.Statement m =
      .ok newStatement)
    (hget : getParams t.Parameters m = .ok vs) :
    (tidbInvoke unmarshal t driver m).2 = [⟨newStatement, asSlice vs⟩] ∧
    (tidbInvoke unmarshal t driver m').2 = [⟨newStatement, asSlice vs⟩] ∧
    asSlice vs = declaredSlice t.Parameters m := by
  refine ⟨tidbInvoke_trace unmarshal t driver m hres hget, ?_, ?_⟩
  · have hres' : resolveTemplateParams t.TemplateParameters t.Statement m' =
        .ok newStatement := by
      rw [resolveTemplateParams_congr _ _ hm]; exact hres
    have hget' : getParams t.Parameters m' = .ok vs := by
      rw [getParams_congr _ hm]; exact hget
    exact tidbInvoke_trace unmarshal t driver m' hres' hget'
  · rw [getParams_shape hget]
    simp [asSlice, declaredSlice, List.map_map]

/-- Witness for C3: the same arguments supplied in reversed order produce
the identical declaration-ordered driver call. -/
theorem c3_witness :
    (tidbInvoke unitUnmarshal sampleTool okEmptyDriver sampleParams).2 =
      [⟨"SELECT * FROM users WHERE id = ?",
        asSlice [("id", Value.vInt 3)]⟩] ∧
    (tidbInvoke unitUnmarshal sampleTool okEmptyDriver sampleParamsRev).2 =
      [⟨"SELECT * FROM users WHERE id = ?",
        asSlice [("id", Value.vInt 3)]⟩] ∧
    asSlice [("id", Value.vInt 3)] =
      declaredSlice sampleTool.Parameters sampleParams := by
  refine c3_declaration_order unitUnmarshal sampleTool okEmptyDriver
    sampleParams sampleParamsRev "SELECT * FROM users WHERE id = ?"
    [("id", .vInt 3)] ?_ (by decide) (by decide)
  intro k
  by_cases h1 : k = "tableName"
  · subst h1; decide
  · by_cases h2 : k = "id"
    · subst h2; decide
    · have h1a : ¬("tableName" = k) := fun hh => h1 hh.symm
      have h2a : ¬("id" = k) := fun hh => h2 hh.symm
      simp [sampleParams, sampleParamsRev, lookupVal, h1a, h2a]

/-- C7: when the underlying driver call fails, both the tidb-sql and the
mindsdb-sql Invoke wrap the driver error behind the fixed prefix
"unable to execute query: " and the recorded driver-call trace has exactly
one entry — the call is issued once and never retried. -/
theorem c7_driver_error_wrapped {α β : Type}
    (unmarshal : String → Except String α) (conv : String → Raw → Except String β)
    (t : Tool) (m : List (String × Value)) (newStatement : String)
    (vs : List (String × Value)) (e : String)
    (driver : String → List Value → Except String QueryResult)
    (hres : resolveTemplateParams t.TemplateParameters t.Statement m =
      .ok newStatement)
    (hget : getParams t.Parameters m = .ok vs)
    (hd1 : driver newStatement (asSlice vs) = .error e)
    (hd2 : driver (interpolateParams newStatement (asSlice vs)).1 [] = .error e) :
    tidbInvoke unmarshal t driver m =
      (.error ("unable to execute query: " ++ e),
        [⟨newStatement, asSlice vs⟩]) ∧
    mindsdbInvoke conv t driver m =
      (.error ("unable to execute query: " ++ e),
        [⟨(interpolateParams newStatement (asSlice vs)).1, []⟩]) := by
  constructor
  · unfold tidbInvoke
    rw [hres, hget]
    dsimp only
    rw [hd1]
  · unfold mindsdbInvoke
    rw [hres, hget]
    simp only [interpolateParams]
    simp only [interpolateParams] at hd2
    rw [hd2]

/-- Witness for C7: a failing driver yields the wrapped error and a
one-element call trace for both tools. -/
theorem c7_witness :
    tidbInvoke unitUnmarshal sampleTool (failDriver "boom") sampleParams =
      (.error ("unable to execute query: " ++ "boom"),
        [⟨"SELECT * FROM users WHERE id = ?",
          asSlice [("id", Value.vInt 3)]⟩]) ∧
    mindsdbInvoke unitConv sampleTool (failDriver "boom") sampleParams =
      (.error ("unable to execute query: " ++ "boom"),
        [⟨(interpolateParams "SELECT * FROM users WHERE id = ?"
            (asSlice [("id", Value.vInt 3)])).1, []⟩]) :=
  c7_driver_error_wrapped unitUnmarshal unitConv sampleTool sampleParams
    "SELECT * FROM users WHERE id = ?" [("id", .vInt 3)] "boom"
    (failDriver "boom") (by decide) (by decide) (by decide) (by decide)

theorem getParams_error_first {ps : List Param} {m : List (String × Value)}
    {q : Param} (hq : firstViolated ps m = some q) :
    getParams ps m = .error (paramErrorMsg q m) := by
  induction ps with
  | nil => simp [firstViolated] at hq
  | cons p rest ih =>
    unfold firstViolated at hq
    by_cases hv : p.violated m
    · rw [if_pos hv] at hq
      injection hq with hq0
      subst hq0
      unfold getParams paramErrorMsg
      unfold Param.violated at hv
      cases hl : lookupVal m p.name with
      | some v =>
        rw [hl] at hv
        dsimp only at hv ⊢
        have hmf : ¬(p.ptype.matches v = true) := by
          cases hmv : p.ptype.matches v
          · simp
          · rw [hmv] at hv; simp at hv
        rw [if_neg hmf]
      | none =>
        rw [hl] at hv
        dsimp only at hv ⊢
        have hd : p.default = none := Option.isNone_iff_eq_none.mp hv
        rw [hd]
    · rw [if_neg hv] at hq
      have hrec := ih hq
      unfold getParams
      unfold Param.violated at hv
      cases hl : lookupVal m p.name with
      | some v =>
        rw [hl] at hv
        dsimp only at hv ⊢
        have hmt : p.ptype.matches v = true := by
          cases hmv : p.ptype.matches v
          · rw [hmv] at hv; simp at hv
          · rfl
        rw [if_pos hmt, hrec]
        rfl
      | none =>
        rw [hl] at hv
        dsimp only at hv ⊢
        cases hd : p.default with
        | none => rw [hd] at hv; simp at hv
        | some d =>
          dsimp only
          rw [hrec]
          rfl

theorem paramErrorMsg_names (q : Param) (m : List (String × Value)) :
    List.IsInfix q.name.data
      ("unable to extract standard params " ++ paramErrorMsg q m).data := by
  unfold paramErrorMsg
  cases lookupVal m q.name with
  | some v =>
    exact ⟨("unable to extract standard params " ++ "parameter \"").data,
      ("\" has an invalid type").data,
      by simp [String.data_append, List.append_assoc]⟩
  | none =>
    exact ⟨("unable to extract standard params " ++ "parameter \"").data,
      ("\" is required").data,
      by simp [String.data_append, List.append_assoc]⟩

/-- C6: a missing or mistyped required declared parameter makes the
invocation fail before any driver call: the tidb-sql Invoke returns the
parameter-extraction error (whose message embeds the offending parameter's
name) with an empty driver trace, and the BigQuery dataset-info Invoke
returns its comma-ok assertion error naming the 'project' parameter with an
empty metadata-call trace. -/
theorem c6_param_validation {α μ : Type} (unmarshal : String → Except String α)
    (clientProject : String) (metadata : String → String → Except String μ)
    (t : Tool) (driver : String → List Value → Except String QueryResult)
    (m bm : List (String × Value)) (newStatement : String) (q : Param)
    (hres : resolveTemplateParams t.TemplateParameters t.Statement m =
      .ok newStatement)
    (hq : firstViolated t.Parameters m = some q)
    (hbq : notAString (lookupVal bm "project") = true) :
    tidbInvoke unmarshal t driver m =
      (.error ("unable to extract standard params " ++ paramErrorMsg q m), []) ∧
    List.IsInfix q.name.data
      ("unable to extract standard params " ++ paramErrorMsg q m).data ∧
    bigqueryInvoke clientProject metadata bm =
      (.error "invalid or missing \x27project\x27 parameter; expected a string",
        []) := by
  refine ⟨?_, paramErrorMsg_names q m, ?_⟩
  · unfold tidbInvoke
    rw [hres, getParams_error_first hq]
  · unfold bigqueryInvoke
    cases hl : lookupVal bm "project" with
    | none => rfl
    | some v =>
      rw [hl] at hbq
      cases v with
      | vStr s => simp [notAString] at hbq
      | vNull => rfl
      | vInt i => rfl
      | vUInt n => rfl
      | vFloat r => rfl
      | vBool b => rfl
      | vOther r => rfl

/-- Witness for C6: with the required integer parameter absent the tidb
invocation fails before the driver with an error naming it, and a BigQuery
invocation without a project argument fails before the client naming
'project'. -/
theorem c6_witness :
    tidbInvoke unitUnmarshal sampleTool okEmptyDriver
        [("tableName", Value.vStr "users")] =
      (.error ("unable to extract standard params " ++
        paramErrorMsg ⟨"id", .tInteger, none⟩ [("tableName", Value.vStr "users")]),
        []) ∧
    bigqueryInvoke "proj" unitMetadata [("dataset", Value.vStr "d")] =
      (.error "invalid or missing \x27project\x27 parameter; expected a string",
        []) := by
  have h := c6_param_validation unitUnmarshal "proj" unitMetadata sampleTool
    okEmptyDriver [("tableName", Value.vStr "users")]
    [("dataset", Value.vStr "d")] "SELECT * FROM users WHERE id = ?"
    ⟨"id", .tInteger, none⟩ (by decide) (by decide) (by decide)
  exact ⟨h.1, h.2.2⟩

/-- C8: invocation is stateless with respect to the tool configuration: the
receiver returned at method exit agrees with the input tool on every field
(name, kind, auth requirements, the three parameter lists, the statement and
both manifests), and a second invocation on that receiver behaves exactly
like the first. -/
theorem c8_invoke_stateless {α β : Type} (unmarshal : String → Except String α)
    (conv : String → Raw → Except String β) (t : Tool)
    (driver : String → List Value → Except String QueryResult)
    (params : List (String × Value)) :
    (tidbInvokeWithReceiver unmarshal t driver params).2.Name = t.Name ∧
    (tidbInvokeWithReceiver unmarshal t driver params).2.Kind = t.Kind ∧
    (tidbInvokeWithReceiver unmarshal t driver params).2.AuthRequired =
      t.AuthRequired ∧
    (tidbInvokeWithReceiver unmarshal t driver params).2.Parameters =
      t.Parameters ∧
    (tidbInvokeWithReceiver unmarshal t driver params).2.TemplateParameters =
      t.TemplateParameters ∧
    (tidbInvokeWithReceiver unmarshal t driver params).2.AllParams =
      t.AllParams ∧
    (tidbInvokeWithReceiver unmarshal t driver params).2.Statement =
      t.Statement ∧
    (tidbInvokeWithReceiver unmarshal t driver params).2.manifest =
      t.manifest ∧
    (tidbInvokeWithReceiver unmarshal t driver params).2.mcpManifest =
      t.mcpManifest ∧
    (mindsdbInvokeWithReceiver conv t driver params).2 = t ∧
    tidbInvoke unmarshal (tidbInvokeWithReceiver unmarshal t driver params).2
        driver params =
      tidbInvoke unmarshal t driver params ∧
    mindsdbInvoke conv (mindsdbInvokeWithReceiver conv t driver params).2
        driver params =
      mindsdbInvoke conv t driver params :=
  ⟨rfl, rfl, rfl, rfl, rfl, rfl, rfl, rfl, rfl, rfl, rfl, rfl⟩

theorem convertCellTidb_ok {α : Type} {unmarshal : String → Except String α}
    {ty : String} {v : Option Raw} {c : Cell α}
    (h : convertCellTidb unmarshal ty v = .ok c) :
    c = claimedCell unmarshal ty v := by
  unfold convertCellTidb at h
  unfold claimedCell
  cases v with
  | none => cases h; rfl
  | some rv =>
    cases rv with
    | bytes s =>
      dsimp only at h ⊢
      by_cases hj : ty = "JSON"
      · rw [if_pos hj] at h ⊢
        cases hu : unmarshal s with
        | ok j =>
          rw [hu] at h
          dsimp only at h ⊢
          cases h
          rfl
        | error e =>
          rw [hu] at h
          dsimp only at h
          exact Except.noConfusion h
      · rw [if_neg hj] at h ⊢
        by_cases ht : ty = "TEXT" ∨ ty = "VARCHAR" ∨ ty = "NVARCHAR"
        · rw [if_pos ht] at h ⊢
          cases h
          rfl
        · rw [if_neg ht] at h ⊢
          cases h
          rfl
    | int i =>
      dsimp only at h ⊢
      by_cases hj : ty = "JSON"
      · rw [if_pos hj] at h
        exact Except.noConfusion h
      · rw [if_neg hj] at h
        by_cases ht : ty = "TEXT" ∨ ty = "VARCHAR" ∨ ty = "NVARCHAR"
        · rw [if_pos ht] at h
          exact Except.noConfusion h
        · rw [if_neg ht] at h
          cases h
          rfl
    | float r =>
      dsimp only at h ⊢
      by_cases hj : ty = "JSON"
      · rw [if_pos hj] at h
        exact Except.noConfusion h
      · rw [if_neg hj] at h
        by_cases ht : ty = "TEXT" ∨ ty = "VARCHAR" ∨ ty = "NVARCHAR"
        · rw [if_pos ht] at h
          exact Except.noConfusion h
        · rw [if_neg ht] at h
          cases h
          rfl

theorem materializeRowTidb_ok {α : Type} {unmarshal : String → Except String α} :
    ∀ {ns ts : List String} {vs : List (Option Raw)}
      {row : List (String × Cell α)},
      materializeRowTidb unmarshal ns ts vs = .ok row →
        row = claimedRow unmarshal ns ts vs := by
  intro ns
  induction ns with
  | nil =>
    intro ts vs row h
    unfold materializeRowTidb at h
    cases h
    rfl
  | cons name ns ih =>
    intro ts vs row h
    cases ts with
    | nil => simp [materializeRowTidb] at h
    | cons ty ts =>
      cases vs with
      | nil => simp [materializeRowTidb] at h
      | cons v vs =>
        unfold materializeRowTidb at h
        cases hc : convertCellTidb unmarshal ty v with
        | error e =>
          rw [hc] at h
          dsimp only at h
          exact Except.noConfusion h
        | ok cell =>
          rw [hc] at h
          dsimp only at h
          cases hr : materializeRowTidb unmarshal ns ts vs with
          | error e =>
            rw [hr] at h
            dsimp only at h
            exact Except.noConfusion h
          | ok rest =>
            rw [hr] at h
            dsimp only at h
            cases h
            show (name, cell) :: rest =
              (name, claimedCell unmarshal ty v) :: claimedRow unmarshal ns ts vs
            rw [← convertCellTidb_ok hc, ← ih hr]

theorem materializeRowTidb_keys {α : Type} {unmarshal : String → Except String α} :
    ∀ {ns ts : List String} {vs : List (Option Raw)}
      {row : List (String × Cell α)},
      materializeRowTidb unmarshal ns ts vs = .ok row →
        row.map Prod.fst = ns := by
  intro ns
  induction ns with
  | nil =>
    intro ts vs row h
    unfold materializeRowTidb at h
    cases h
    rfl
  | cons name ns ih =>
    intro ts vs row h
    cases ts with
    | nil => simp [materializeRowTidb] at h
    | cons ty ts =>
      cases vs with
      | nil => simp [materializeRowTidb] at h
      | cons v vs =>
        unfold materializeRowTidb at h
        cases hc : convertCellTidb unmarshal ty v with
        | error e =>
          rw [hc] at h
          dsimp only at h
          exact Except.noConfusion h
        | ok cell =>
          rw [hc] at h
          dsimp only at h
          cases hr : materializeRowTidb unmarshal ns ts vs with
          | error e =>
            rw [hr] at h
            dsimp only at h
            exact Except.noConfusion h
          | ok rest =>
            rw [hr] at h
            dsimp only at h
            cases h
            show ((name, cell) :: rest).map Prod.fst = name :: ns
            simp [ih hr]

theorem materializeTidb_go_ok {α : Type} {unmarshal : String → Except String α}
    {qr : QueryResult} :
    ∀ {rs : List (List (Option Raw))} {out : List (List (String × Cell α))},
      materializeTidb.go unmarshal qr rs = .ok out →
        out = rs.map (fun r => claimedRow unmarshal qr.cols qr.colTypes r) := by
  intro rs
  induction rs with
  | nil =>
    intro out h
    unfold materializeTidb.go at h
    cases h
    rfl
  | cons r rs ih =>
    intro out h
    unfold materializeTidb.go at h
    cases hr : materializeRowTidb unmarshal qr.cols qr.colTypes r with
    | error e =>
      rw [hr] at h
      dsimp only at h
      exact Except.noConfusion h
    | ok row =>
      rw [hr] at h
      dsimp only at h
      cases hrest : materializeTidb.go unmarshal qr rs with
      | error e =>
        rw [hrest] at h
        dsimp only at h
        exact Except.noConfusion h
      | ok rest =>
        rw [hrest] at h
        dsimp only at h
        cases h
        show row :: rest = claimedRow unmarshal qr.cols qr.colTypes r ::
          rs.map (fun x => claimedRow unmarshal qr.cols qr.colTypes x)
        rw [← materializeRowTidb_ok hr, ← ih hrest]

theorem materializeTidb_go_keys {α : Type} {unmarshal : String → Except String α}
    {qr : QueryResult} :
    ∀ {rs : List (List (Option Raw))} {out : List (List (String × Cell α))},
      materializeTidb.go unmarshal qr rs = .ok out →
        out.map (List.map Prod.fst) = List.replicate rs.length qr.cols := by
  intro rs
  induction rs with
  | nil =>
    intro out h
    unfold materializeTidb.go at h
    cases h
    rfl
  | cons r rs ih =>
    intro out h
    unfold materializeTidb.go at h
    cases hr : materializeRowTidb unmarshal qr.cols qr.colTypes r with
    | error e =>
      rw [hr] at h
      dsimp only at h
      exact Except.noConfusion h
    | ok row =>
      rw [hr] at h
      dsimp only at h
      cases hrest : materializeTidb.go unmarshal qr rs with
      | error e =>
        rw [hrest] at h
        dsimp only at h
        exact Except.noConfusion h
      | ok rest =>
        rw [hrest] at h
        dsimp only at h
        cases h
        show (row :: rest).map (List.map Prod.fst) =
          List.replicate (rs.length + 1) qr.cols
        rw [List.map_cons, materializeRowTidb_keys hr, ih hrest,
          List.replicate_succ]

/-- C4: a successfully materialized tidb-sql result applies exactly the
claimed column-type coercions, cell by cell: nil stays nil, JSON columns
hold the unmarshalled document (never the raw string), TEXT, VARCHAR and
NVARCHAR columns hold the native string of the byte value, and every other
column holds the raw driver value unchanged. -/
theorem c4_column_type_coercion {α : Type} (unmarshal : String → Except String α)
    (qr : QueryResult) (out : List (List (String × Cell α)))
    (h : materializeTidb unmarshal qr = .ok out) :
    out = claimedMaterialize unmarshal qr := by
  unfold materializeTidb at h
  exact materializeTidb_go_ok h

/-- Witness for C4: a result with one JSON, one TEXT and one numeric column
materializes into the unmarshalled document, the native string and the raw
value. -/
theorem c4_witness :
    materializeTidb tagUnmarshal sampleQr =
      .ok [[("doc", .json "json:7"), ("name", .str "bob"), ("n", .raw (.int 5))],
        [("doc", .null), ("name", .str "x"), ("n", .raw (.int 1))]] ∧
    [[("doc", Cell.json "json:7"), ("name", Cell.str "bob"),
        ("n", Cell.raw (.int 5))],
      [("doc", Cell.null), ("name", Cell.str "x"), ("n", Cell.raw (.int 1))]] =
      claimedMaterialize tagUnmarshal sampleQr :=
  ⟨by decide, c4_column_type_coercion tagUnmarshal sampleQr _ (by decide)⟩

theorem materializeRowPg_ok {γ : Type} :
    ∀ {fs : List String} {r : List γ} {row : List (String × γ)},
      materializeRowPg fs r = .ok row → row = fs.zip r := by
  intro fs
  induction fs with
  | nil =>
    intro r row h
    unfold materializeRowPg at h
    cases h
    simp
  | cons f fs ih =>
    intro r row h
    cases r with
    | nil => simp [materializeRowPg] at h
    | cons v vs =>
      unfold materializeRowPg at h
      cases hr : materializeRowPg fs vs with
      | error e =>
        rw [hr] at h
        dsimp only at h
        exact Except.noConfusion h
      | ok rest =>
        rw [hr] at h
        dsimp only at h
        cases h
        show (f, v) :: rest = (f, v) :: fs.zip vs
        rw [← ih hr]

theorem materializePg_go_ok {γ : Type} {pqr : PgResult γ} :
    ∀ {rs : List (List γ)} {out : List (List (String × γ))},
      materializePg.go pqr rs = .ok out →
        out = rs.map (fun r => pqr.fields.zip r) := by
  intro rs
  induction rs with
  | nil =>
    intro out h
    unfold materializePg.go at h
    cases h
    rfl
  | cons r rs ih =>
    intro out h
    unfold materializePg.go at h
    cases hr : materializeRowPg pqr.fields r with
    | error e =>
      rw [hr] at h
      dsimp only at h
      exact Except.noConfusion h
    | ok row =>
      rw [hr] at h
      dsimp only at h
      cases hrest : materializePg.go pqr rs with
      | error e =>
        rw [hrest] at h
        dsimp only at h
        exact Except.noConfusion h
      | ok rest =>
        rw [hrest] at h
        dsimp only at h
        cases h
        show row :: rest = pqr.fields.zip r :: rs.map (fun x => pqr.fields.zip x)
        rw [← materializeRowPg_ok hr, ← ih hrest]

/-- C5: for successful materializations, output rows are produced one per
driver row in the driver's order with no re-sorting (the output is the
element-wise image of the driver row list), and within each row the
produced name/value pairs follow the driver's column order: the key
sequence of every tidb row is the driver column list, and every postgres
row is the positional zip of the driver field list with the row values. -/
theorem c5_order_preservation {α γ : Type} (unmarshal : String → Except String α)
    (qr : QueryResult) (out : List (List (String × Cell α)))
    (pqr : PgResult γ) (pout : List (List (String × γ)))
    (h : materializeTidb unmarshal qr = .ok out)
    (hp : materializePg pqr = .ok pout) :
    out.length = qr.rows.length ∧
    out.map (List.map Prod.fst) = List.replicate qr.rows.length qr.cols ∧
    out = claimedMaterialize unmarshal qr ∧
    pout.length = pqr.rows.length ∧
    pout = pgZip pqr := by
  unfold materializeTidb at h
  unfold materializePg at hp
  refine ⟨?_, materializeTidb_go_keys h, materializeTidb_go_ok h, ?_,
    materializePg_go_ok hp⟩
  · rw [materializeTidb_go_ok h]
    simp [claimedMaterialize]
  · rw [materializePg_go_ok hp]
    simp

/-- Witness for C5: two rows, two columns, driver order preserved in rows
and in the per-row key sequences for both the tidb and the postgres
materializations. -/
theorem c5_witness :
    ([[("b", Cell.raw (Raw.int 2)), ("a", Cell.raw (Raw.int 1))],
      [("b", Cell.raw (Raw.int 4)), ("a", Cell.raw (Raw.int 3))]] :
        List (List (String × Cell Unit))).length = orderQr.rows.length ∧
    ([[("b", Cell.raw (Raw.int 2)), ("a", Cell.raw (Raw.int 1))],
      [("b", Cell.raw (Raw.int 4)), ("a", Cell.raw (Raw.int 3))]] :
        List (List (String × Cell Unit))).map (List.map Prod.fst) =
      List.replicate orderQr.rows.length orderQr.cols ∧
    ([[("b", Cell.raw (Raw.int 2)), ("a", Cell.raw (Raw.int 1))],
      [("b", Cell.raw (Raw.int 4)), ("a", Cell.raw (Raw.int 3))]] :
        List (List (String × Cell Unit))) =
      claimedMaterialize unitUnmarshal orderQr ∧
    [[("y", (2 : Int)), ("x", 1)], [("y", 4), ("x", 3)]].length =
      pgSampleQr.rows.length ∧
    [[("y", (2 : Int)), ("x", 1)], [("y", 4), ("x", 3)]] = pgZip pgSampleQr :=
  c5_order_preservation unitUnmarshal orderQr
    [[("b", Cell.raw (Raw.int 2)), ("a", Cell.raw (Raw.int 1))],
      [("b", Cell.raw (Raw.int 4)), ("a", Cell.raw (Raw.int 3))]]
    pgSampleQr [[("y", (2 : Int)), ("x", 1)], [("y", 4), ("x", 3)]]
    (by decide) (by decide)

end Toolbox
